import Mathlib

/-!
Verification of the autocxx core: the binding-item (Api) naming model from
engine/src/conversion/api.rs and the macro-discovery build driver
(Builder::new) from gen/build/src/lib.rs, shallowly embedded in Lean.
External effects (filesystem, the syn parser, the engine's conversion
pipeline) are supplied through an explicit environment of oracle results,
so that the driver's control flow, error classification and event order
are the code's own.
-/

namespace Autocxx

/-- Modelled from the spec: `Namespace` (engine/src/types.rs, not among the
provided sources) is an ordered sequence of path segments; equality is exact
segment-sequence equality. -/
abbrev NS := List String

/-- Modelled from the spec: `TypeName` (engine/src/types.rs, not among the
provided sources) is a pair of a Namespace and a bare name; two TypeNames are
equal iff namespace and bare name are both equal. -/
structure TypeName where
  ns : NS
  name : String
deriving DecidableEq, Repr

/-- Modelled from the spec: `TypeName::new` constructs a TypeName from a
namespace context and a declared identifier (identifiers are modelled as
their strings, so Rust's `id.to_string()` is the identity here). -/
def TypeName.new (ns : NS) (id : String) : TypeName :=
  ⟨ns, id⟩

/-- engine/src/conversion/api.rs: `enum Use` — whether and how a type is
exposed in the mods constructed for end-user use. -/
inductive Use where
  | Unused
  | Used
  | UsedWithAlias (al : String)
deriving DecidableEq, Repr

/-- Opaque stand-in for a `syn::ForeignItem` fragment (external crate). -/
inductive ForeignItem where
  | fragment (tag : String)

/-- Opaque stand-in for an `AdditionalNeed` marker (additional_cpp_generator,
external to the provided sources). -/
inductive AdditionalNeed where
  | need (tag : String)

/-- syn::Path: leading colon flag plus path segments (segment arguments are
not modelled; the driver only compares against a bare identifier). -/
structure SynPath where
  leading_colon : Bool
  segments : List String

/-- syn::Path::is_ident: true iff there is no leading colon and the path is
exactly one segment equal to the given identifier. -/
def SynPath.is_ident (p : SynPath) (name : String) : Bool :=
  !p.leading_colon && p.segments == [name]

/-- syn::Macro: the macro's path and its (opaque) token stream. -/
structure Mac where
  path : SynPath
  tokens : String

/-- syn::Item restricted to what the driver inspects: a top-level macro
invocation, a module (whose contents the driver never enters), or any other
item kind. -/
inductive Item where
  | Macro (mac : Mac)
  | Mod (name : String) (items : List Item)
  | Other (tag : String)

/-- engine/src/conversion/api.rs: `struct Api`. The syn/engine fragment
payloads are opaque here; `deps` is a HashSet in Rust, a list here (no claim
depends on its set structure). -/
structure Api where
  ns : NS
  id : String
  use_stmt : Use
  deps : List TypeName
  extern_c_mod_item : Option ForeignItem
  bridge_item : Option Item
  global_items : List Item
  additional_cpp : Option AdditionalNeed
  id_for_allowlist : Option String
  bindgen_mod_item : Option Item

/-- engine/src/conversion/api.rs: `Api::typename`. -/
def Api.typename (a : Api) : TypeName :=
  TypeName.new a.ns a.id

/-- engine/src/conversion/api.rs: `Api::typename_for_allowlist`. -/
def Api.typename_for_allowlist (a : Api) : TypeName :=
  let id_for_allowlist :=
    match a.id_for_allowlist with
    | none =>
      match a.use_stmt with
      | Use.UsedWithAlias al => al
      | _ => a.id
    | some id => id
  TypeName.new a.ns id_for_allowlist

/-- engine/src/conversion/api.rs: `enum ConvertError`. -/
inductive ConvertError where
  | NoContent
  | UnsafePODType (err : String)
  | UnexpectedForeignItem
  | UnexpectedOuterItem
  | UnexpectedItemInMod
  | ComplexTypedefTarget (ty : String)
  | UnexpectedThisType
deriving DecidableEq, Repr

/-- engine/src/conversion/api.rs: `impl Display for ConvertError` — the
message written to the formatter. -/
def ConvertError.fmt : ConvertError → String
  | ConvertError.NoContent =>
      "The initial run of 'bindgen' did not generate any content. This might be because none of the requested items for generation could be converted."
  | ConvertError.UnsafePODType err =>
      "An item was requested using 'generate_pod' which was not safe to hold by value in Rust. " ++ err
  | ConvertError.UnexpectedForeignItem =>
      "Bindgen generated some unexpected code in a foreign mod section. You may have specified something in a 'generate' directive which is not currently compatible with autocxx."
  | ConvertError.UnexpectedOuterItem =>
      "Bindgen generated some unexpected code in its outermost mod section. You may have specified something in a 'generate' directive which is not currently compatible with autocxx."
  | ConvertError.UnexpectedItemInMod =>
      "Bindgen generated some unexpected code in an inner namespace mod. You may have specified something in a 'generate' directive which is not currently compatible with autocxx."
  | ConvertError.ComplexTypedefTarget ty =>
      "autocxx was unable to produce a typdef pointing to the complex type " ++ ty ++ "."
  | ConvertError.UnexpectedThisType =>
      "Unexpected type for 'this'"

/-- gen/build/src/lib.rs: `enum Error` — errors returned during creation of a
cc::Build from an include_cxx macro. io::Error and syn::Error are external
opaque values, modelled as their message strings. -/
structure IoError where
  msg : String
deriving DecidableEq, Repr

/-- Opaque stand-in for syn::Error (external crate). -/
structure SynError where
  msg : String
deriving DecidableEq, Repr

/-- gen/build/src/lib.rs: `enum Error`. -/
inductive Error where
  | FileReadError (e : IoError)
  | Syntax (e : SynError)
  | InvalidCxx (msg : String)
  | TempDirCreationFailed (e : IoError)
  | FileWriteFail (e : IoError)
  | NoIncludeCxxMacrosFound
  | MacroParseFail (e : SynError)
deriving DecidableEq, Repr

/-- tempfile::TempDir, reduced to the path it stands for. -/
structure TempDir where
  path : String
deriving DecidableEq, Repr

/-- cc::Build, reduced to the state the driver mutates: the cpp flag, the
registered header search paths (`include`) and the registered compilation
inputs (`file`), each kept in registration order. -/
structure Build where
  cpp : Bool
  includes : List String
  files : List String
deriving DecidableEq, Repr

/-- cc::Build::new. -/
def Build.new : Build :=
  ⟨false, [], []⟩

/-- builder.cpp(flag). -/
def Build.setCpp (b : Build) (flag : Bool) : Build :=
  { b with cpp := flag }

/-- builder.include(dir): register a header search path. -/
def Build.include (b : Build) (dir : String) : Build :=
  { b with includes := b.includes ++ [dir] }

/-- builder.file(path): register a compilation input. -/
def Build.file (b : Build) (p : String) : Build :=
  { b with files := b.files ++ [p] }

/-- syn::File: the parsed source file's top-level items. -/
structure File where
  items : List Item

/-- Modelled from the spec: `IncludeCpp` (engine/src/lib.rs, not among the
provided sources) is the parsed macro argument; the driver only calls
`include_dir()` and `generate_h_and_cxx()` on it, so it is modelled as the
results those calls would produce — the include directory, and either the
(header, cxx) pair produced by the conversion pipeline or the conversion
failure message. -/
structure IncludeCpp where
  includeDir : String
  genResult : Except String (String × String)

/-- IncludeCpp::include_dir. -/
def IncludeCpp.include_dir (ic : IncludeCpp) : String :=
  ic.includeDir

/-- IncludeCpp::generate_h_and_cxx. -/
def IncludeCpp.generate_h_and_cxx (ic : IncludeCpp) : Except String (String × String) :=
  ic.genResult

/-- The environment of external effects Builder::new performs: the outcome of
tempfile::tempdir(), of fs::read_to_string on the given path, of
syn::parse_file, of IncludeCpp::new_from_syn on each macro, and of creating
and writing a file at a path (File::create + write_all, used by
write_to_file). -/
structure Ext where
  tempdirResult : Except IoError TempDir
  readToString : Except IoError String
  parseFile : String → Except SynError File
  newFromSyn : Mac → Except SynError IncludeCpp
  writeFile : String → String → Except IoError Unit

/-- The observable effects the driver performs, in order: acquiring the
temporary directory, reading and parsing the file, and, per matching macro
invocation, parsing its arguments, registering its include directory,
converting it, writing the generated file (recorded with its filename and
contents) and registering the written file as a compilation input.
Invocation-level events carry the driver's counter at the invocation. -/
inductive Event where
  | tempdirCreated (path : String)
  | fileRead
  | fileParsed
  | argsParsed (counter : Nat)
  | includeRegistered (dir : String)
  | converted (counter : Nat)
  | fileWritten (fname : String) (contents : String)
  | fileRegistered (path : String)
deriving DecidableEq, Repr

/-- gen/build/src/lib.rs: `struct Builder` — owns the cc::Build and the
temporary directory. -/
structure Builder where
  build : Build
  _tdir : TempDir
deriving DecidableEq, Repr

/-- gen/build/src/lib.rs: `Builder::write_to_file` — joins the temporary
directory's path with the filename, creates and writes the file (through the
environment), and returns the path. -/
def write_to_file (ext : Ext) (tdir : TempDir) (filename : String)
    (content : String) : Except IoError String :=
  let path := tdir.path ++ "/" ++ filename
  match ext.writeFile path content with
  | Except.error e => Except.error e
  | Except.ok _ => Except.ok path

/-- One iteration of the loop body of Builder::new over a top-level item:
non-macro items and macro invocations whose path is not the single segment
`include_cxx` are skipped; a matching invocation is parsed
(IncludeCpp::new_from_syn), its include directory registered, converted
(generate_h_and_cxx), its output written as gen<counter>.cxx, and the written
file registered, failing fast with the classified error. Returns the updated
(Build, counter) or the error, plus the events performed. -/
def processItem (ext : Ext) (tdir : TempDir) (b : Build) (counter : Nat) :
    Item → Except Error (Build × Nat) × List Event
  | Item.Macro mac =>
    if mac.path.is_ident "include_cxx" then
      match ext.newFromSyn mac with
      | Except.error e => (Except.error (Error.MacroParseFail e), [])
      | Except.ok include_cpp =>
        let b1 := b.include include_cpp.include_dir
        match include_cpp.generate_h_and_cxx with
        | Except.error msg =>
          (Except.error (Error.InvalidCxx msg),
           [Event.argsParsed counter,
            Event.includeRegistered include_cpp.include_dir])
        | Except.ok (_, cxx) =>
          let fname := "gen" ++ toString counter ++ ".cxx"
          match write_to_file ext tdir fname cxx with
          | Except.error e =>
            (Except.error (Error.FileWriteFail e),
             [Event.argsParsed counter,
              Event.includeRegistered include_cpp.include_dir,
              Event.converted counter])
          | Except.ok gen_cxx_path =>
            (Except.ok (b1.file gen_cxx_path, counter + 1),
             [Event.argsParsed counter,
              Event.includeRegistered include_cpp.include_dir,
              Event.converted counter,
              Event.fileWritten fname cxx,
              Event.fileRegistered gen_cxx_path])
    else
      (Except.ok (b, counter), [])
  | Item.Mod _ _ => (Except.ok (b, counter), [])
  | Item.Other _ => (Except.ok (b, counter), [])

/-- The loop of Builder::new over the file's top-level items: fail-fast left
fold of `processItem`, concatenating the event traces. -/
def processItems (ext : Ext) (tdir : TempDir) (b : Build) (counter : Nat) :
    List Item → Except Error (Build × Nat) × List Event
  | [] => (Except.ok (b, counter), [])
  | item :: rest =>
    match processItem ext tdir b counter item with
    | (Except.error e, tr) => (Except.error e, tr)
    | (Except.ok (b2, c2), tr) =>
      let r := processItems ext tdir b2 c2 rest
      (r.1, tr ++ r.2)

/-- gen/build/src/lib.rs: `Builder::new` — acquire the temporary directory,
create the cc::Build with cpp(true), read and parse the file, run the loop
over its top-level items, and fail with NoIncludeCxxMacrosFound when the
counter stayed zero; otherwise return the Builder owning the build and the
temporary directory. Also returns the performed event trace. -/
def Builder.new (ext : Ext) : Except Error Builder × List Event :=
  match ext.tempdirResult with
  | Except.error e => (Except.error (Error.TempDirCreationFailed e), [])
  | Except.ok tdir =>
    let builder := Build.new.setCpp true
    match ext.readToString with
    | Except.error e =>
      (Except.error (Error.FileReadError e), [Event.tempdirCreated tdir.path])
    | Except.ok source =>
      match ext.parseFile source with
      | Except.error e =>
        (Except.error (Error.Syntax e),
         [Event.tempdirCreated tdir.path, Event.fileRead])
      | Except.ok file =>
        let pre := [Event.tempdirCreated tdir.path, Event.fileRead,
                    Event.fileParsed]
        let r := processItems ext tdir builder 0 file.items
        match r.1 with
        | Except.error e => (Except.error e, pre ++ r.2)
        | Except.ok (b, counter) =>
          if counter == 0 then
            (Except.error Error.NoIncludeCxxMacrosFound, pre ++ r.2)
          else
            (Except.ok { build := b, _tdir := tdir }, pre ++ r.2)

/-- Whether a top-level item is a macro invocation the driver counts: an
Item::Macro whose path is the single unqualified segment include_cxx. -/
def isMatching : Item → Bool
  | Item.Macro mac => mac.path.is_ident "include_cxx"
  | _ => false

/-- The number of matching macro invocations among the top-level items. -/
def countMatching (items : List Item) : Nat :=
  (items.filter isMatching).length

/-- The generated filename for the i-th matching invocation. -/
def genName (i : Nat) : String :=
  "gen" ++ toString i ++ ".cxx"

/-- `n` successive generated filenames starting at counter `c`. -/
def genNameList (c : Nat) : Nat → List String
  | 0 => []
  | n + 1 => genName c :: genNameList (c + 1) n

/-- `n` successive generated file paths (inside `tdir`) starting at `c`. -/
def genPathList (tdir : TempDir) (c : Nat) : Nat → List String
  | 0 => []
  | n + 1 => (tdir.path ++ "/" ++ genName c) :: genPathList tdir (c + 1) n

/-- The filenames of the fileWritten events of a trace, in order. -/
def writtenNames : List Event → List String
  | [] => []
  | Event.fileWritten n _ :: rest => n :: writtenNames rest
  | _ :: rest => writtenNames rest

/-- Per-invocation success of the external steps: the macro's arguments
parse, and the conversion pipeline produces a (header, cxx) pair. -/
def stepsSucceed (ext : Ext) : Item → Prop
  | Item.Macro mac =>
    mac.path.is_ident "include_cxx" = true →
      ∃ ic, ext.newFromSyn mac = Except.ok ic ∧
        ∃ hdr cxx, ic.genResult = Except.ok (hdr, cxx)
  | _ => True

/-- Whether every includeRegistered event of a trace is preceded by some
fileWritten event; `seenWrite` records whether a write was already seen.
This is the order the spec asserts for the include-directory registration
(only after the invocation's file is written). -/
def includeRegAfterWrite (seenWrite : Bool) : List Event → Bool
  | [] => true
  | Event.includeRegistered _ :: rest => seenWrite && includeRegAfterWrite seenWrite rest
  | Event.fileWritten _ _ :: rest => includeRegAfterWrite true rest
  | _ :: rest => includeRegAfterWrite seenWrite rest

/-- A concrete Api with both an allowlist override and an alias. -/
def apiOverride : Api :=
  { ns := ["outer"], id := "Orig", use_stmt := Use.UsedWithAlias "Al",
    deps := [], extern_c_mod_item := none, bridge_item := none,
    global_items := [], additional_cpp := none,
    id_for_allowlist := some "Over", bindgen_mod_item := none }

/-- A concrete Api with an alias and no override. -/
def apiAlias : Api :=
  { apiOverride with id_for_allowlist := none }

/-- A concrete Api with neither override nor alias. -/
def apiPlain : Api :=
  { apiOverride with id_for_allowlist := none, use_stmt := Use.Used }

/-- A matching macro invocation (single unqualified segment include_cxx). -/
def macGood : Mac :=
  { path := { leading_colon := false, segments := ["include_cxx"] },
    tokens := "good" }

/-- A second matching macro invocation. -/
def macGood2 : Mac :=
  { macGood with tokens := "good2" }

/-- A path-qualified invocation: two segments ending in include_cxx. -/
def macQualified : Mac :=
  { path := { leading_colon := false, segments := ["autocxx", "include_cxx"] },
    tokens := "qualified" }

/-- A matching invocation whose argument syntax fails to parse. -/
def macBadParse : Mac :=
  { macGood with tokens := "badparse" }

/-- A matching invocation whose conversion pipeline fails. -/
def macBadGen : Mac :=
  { macGood with tokens := "badgen" }

/-- A concrete new_from_syn oracle keyed on the macro's token stream. -/
def exNewFromSyn : Mac → Except SynError IncludeCpp :=
  fun mac =>
    if mac.tokens == "badparse" then
      Except.error ⟨"unable to parse include_cxx"⟩
    else if mac.tokens == "badgen" then
      Except.ok { includeDir := "inc-badgen",
                  genResult := Except.error "cxx rejected the generated code" }
    else
      Except.ok { includeDir := "inc-" ++ mac.tokens,
                  genResult := Except.ok ("hdr", "cxx-" ++ mac.tokens) }

/-- The temporary directory used by the concrete environments. -/
def tdirT : TempDir :=
  ⟨"/tmp/t"⟩

/-- A fully succeeding environment whose file holds two matching macro
invocations around a non-macro item. -/
def extOk : Ext :=
  { tempdirResult := Except.ok tdirT,
    readToString := Except.ok "srcOk",
    parseFile := fun _ =>
      Except.ok ⟨[Item.Macro macGood, Item.Other "fn", Item.Macro macGood2]⟩,
    newFromSyn := exNewFromSyn,
    writeFile := fun _ _ => Except.ok () }

/-- An environment whose single invocation succeeds end to end. -/
def extOne : Ext :=
  { extOk with
    readToString := Except.ok "srcOne",
    parseFile := fun _ => Except.ok ⟨[Item.Macro macGood]⟩ }

/-- An environment where temporary-directory creation fails although the
file is readable, parseable and holds no matching invocation. -/
def extTmpFail : Ext :=
  { extOk with
    tempdirResult := Except.error ⟨"tmpfail"⟩,
    readToString := Except.ok "",
    parseFile := fun _ => Except.ok ⟨[]⟩ }

/-- An environment whose file holds no matching invocation: a qualified
macro path, a module with a matching invocation nested inside, and a
non-macro item. -/
def extSkip : Ext :=
  { extOk with
    readToString := Except.ok "srcSkip",
    parseFile := fun _ =>
      Except.ok ⟨[Item.Macro macQualified,
                  Item.Mod "m" [Item.Macro macGood],
                  Item.Other "fn"]⟩ }

/-- An environment whose file holds a failing invocation followed by a
further matching invocation. -/
def extFailFast : Ext :=
  { extOk with
    readToString := Except.ok "srcFF",
    parseFile := fun _ =>
      Except.ok ⟨[Item.Macro macBadParse, Item.Macro macGood]⟩ }

/-- C1: typename_for_allowlist resolves the bare name by precedence: an
explicit id_for_allowlist override wins regardless of the use classification;
otherwise a UsedWithAlias alias; otherwise (Unused or Used) the item's own
declared identifier — always paired with the item's namespace. -/
theorem C1_typename_for_allowlist_precedence (a : Api) :
    (∀ o, a.id_for_allowlist = some o →
      a.typename_for_allowlist = TypeName.new a.ns o) ∧
    (∀ x, a.id_for_allowlist = none → a.use_stmt = Use.UsedWithAlias x →
      a.typename_for_allowlist = TypeName.new a.ns x) ∧
    (a.id_for_allowlist = none →
      (a.use_stmt = Use.Unused ∨ a.use_stmt = Use.Used) →
      a.typename_for_allowlist = TypeName.new a.ns a.id) := by
  refine ⟨fun o ho => ?_, fun x hn hu => ?_, fun hn hu => ?_⟩
  · simp [Api.typename_for_allowlist, ho]
  · simp [Api.typename_for_allowlist, hn, hu]
  · rcases hu with hu | hu <;> simp [Api.typename_for_allowlist, hn, hu]

/-- C1, witnessed on concrete items: the override beats the alias, the alias
beats the declared identifier, and the declared identifier is the default. -/
theorem C1_typename_for_allowlist_precedence_witness :
    apiOverride.typename_for_allowlist = TypeName.new ["outer"] "Over" ∧
    apiAlias.typename_for_allowlist = TypeName.new ["outer"] "Al" ∧
    apiPlain.typename_for_allowlist = TypeName.new ["outer"] "Orig" :=
  ⟨(C1_typename_for_allowlist_precedence apiOverride).1 "Over" rfl,
   (C1_typename_for_allowlist_precedence apiAlias).2.1 "Al" rfl rfl,
   (C1_typename_for_allowlist_precedence apiPlain).2.2 rfl (Or.inr rfl)⟩

/-- C6: typename is always built from the item's own declared identifier and
namespace, unchanged by the use classification and by id_for_allowlist (both
typename and typename_for_allowlist are total Lean functions of the item's
state, so neither can fail). -/
theorem C6_typename_own_identifier (a : Api) :
    a.typename = TypeName.new a.ns a.id ∧
    ∀ u o, ({ a with use_stmt := u, id_for_allowlist := o } : Api).typename
      = a.typename :=
  ⟨rfl, fun _ _ => rfl⟩

/-- C7: ConvertError is a closed taxonomy of exactly the seven listed
variants; UnsafePODType and ComplexTypedefTarget each carry one
type-description string which appears verbatim in the displayed message,
and the other five variants carry no payload. -/
theorem C7_convert_error_taxonomy :
    (∀ e : ConvertError,
      e = ConvertError.NoContent ∨
      (∃ s, e = ConvertError.UnsafePODType s) ∨
      e = ConvertError.UnexpectedForeignItem ∨
      e = ConvertError.UnexpectedOuterItem ∨
      e = ConvertError.UnexpectedItemInMod ∨
      (∃ s, e = ConvertError.ComplexTypedefTarget s) ∨
      e = ConvertError.UnexpectedThisType) ∧
    (∀ s, (ConvertError.UnsafePODType s).fmt =
      "An item was requested using 'generate_pod' which was not safe to hold by value in Rust. " ++ s) ∧
    (∀ s, (ConvertError.ComplexTypedefTarget s).fmt =
      "autocxx was unable to produce a typdef pointing to the complex type " ++ s ++ ".") := by
  refine ⟨fun e => ?_, fun s => rfl, fun s => rfl⟩
  cases e with
  | NoContent => exact Or.inl rfl
  | UnsafePODType s => exact Or.inr (Or.inl ⟨s, rfl⟩)
  | UnexpectedForeignItem => exact Or.inr (Or.inr (Or.inl rfl))
  | UnexpectedOuterItem => exact Or.inr (Or.inr (Or.inr (Or.inl rfl)))
  | UnexpectedItemInMod =>
    exact Or.inr (Or.inr (Or.inr (Or.inr (Or.inl rfl))))
  | ComplexTypedefTarget s =>
    exact Or.inr (Or.inr (Or.inr (Or.inr (Or.inr (Or.inl ⟨s, rfl⟩)))))
  | UnexpectedThisType =>
    exact Or.inr (Or.inr (Or.inr (Or.inr (Or.inr (Or.inr rfl)))))

/-- C9: typename and typename_for_allowlist always carry the same namespace
component — the precedence only ever changes the bare name — and with no
override and a non-alias classification the two functions agree. -/
theorem C9_namespace_component_agreement (a : Api) :
    a.typename_for_allowlist.ns = a.typename.ns ∧
    (a.id_for_allowlist = none →
      (a.use_stmt = Use.Unused ∨ a.use_stmt = Use.Used) →
      a.typename_for_allowlist = a.typename) := by
  constructor
  · rfl
  · rintro hn (hu | hu) <;>
      simp [Api.typename_for_allowlist, Api.typename, hn, hu]

/-- C9, witnessed on a concrete item with no override and a Used
classification: the two TypeNames coincide, and namespaces agree on the
aliased item as well. -/
theorem C9_namespace_component_agreement_witness :
    apiAlias.typename_for_allowlist.ns = apiAlias.typename.ns ∧
    apiPlain.typename_for_allowlist = apiPlain.typename :=
  ⟨(C9_namespace_component_agreement apiAlias).1,
   (C9_namespace_component_agreement apiPlain).2 rfl (Or.inr rfl)⟩

theorem processItem_skip (ext : Ext) (tdir : TempDir) (b : Build) (c : Nat)
    (it : Item) (h : isMatching it = false) :
    processItem ext tdir b c it = (Except.ok (b, c), []) := by
  cases it with
  | Macro mac =>
    simp only [isMatching] at h
    simp [processItem, h]
  | Mod name items => rfl
  | Other tag => rfl

theorem processItem_parse_fail (ext : Ext) (tdir : TempDir) (b : Build)
    (c : Nat) (mac : Mac) (e : SynError)
    (hm : mac.path.is_ident "include_cxx" = true)
    (hp : ext.newFromSyn mac = Except.error e) :
    processItem ext tdir b c (Item.Macro mac) =
      (Except.error (Error.MacroParseFail e), []) := by
  simp [processItem, hm, hp]

theorem processItem_gen_fail (ext : Ext) (tdir : TempDir) (b : Build)
    (c : Nat) (mac : Mac) (ic : IncludeCpp) (msg : String)
    (hm : mac.path.is_ident "include_cxx" = true)
    (hp : ext.newFromSyn mac = Except.ok ic)
    (hg : ic.genResult = Except.error msg) :
    processItem ext tdir b c (Item.Macro mac) =
      (Except.error (Error.InvalidCxx msg),
       [Event.argsParsed c, Event.includeRegistered ic.includeDir]) := by
  simp [processItem, hm, hp, IncludeCpp.generate_h_and_cxx,
        IncludeCpp.include_dir, hg]

theorem processItem_write_fail (ext : Ext) (tdir : TempDir) (b : Build)
    (c : Nat) (mac : Mac) (ic : IncludeCpp) (hdr cxx : String) (e : IoError)
    (hm : mac.path.is_ident "include_cxx" = true)
    (hp : ext.newFromSyn mac = Except.ok ic)
    (hg : ic.genResult = Except.ok (hdr, cxx))
    (hw : ext.writeFile (tdir.path ++ "/" ++ genName c) cxx = Except.error e) :
    processItem ext tdir b c (Item.Macro mac) =
      (Except.error (Error.FileWriteFail e),
       [Event.argsParsed c, Event.includeRegistered ic.includeDir,
        Event.converted c]) := by
  have hw2 := hw
  simp only [genName] at hw2
  simp [processItem, hm, hp, IncludeCpp.generate_h_and_cxx,
        IncludeCpp.include_dir, hg, write_to_file, genName, hw2]

theorem processItem_ok (ext : Ext) (tdir : TempDir) (b : Build)
    (c : Nat) (mac : Mac) (ic : IncludeCpp) (hdr cxx : String)
    (hm : mac.path.is_ident "include_cxx" = true)
    (hp : ext.newFromSyn mac = Except.ok ic)
    (hg : ic.genResult = Except.ok (hdr, cxx))
    (hw : ext.writeFile (tdir.path ++ "/" ++ genName c) cxx = Except.ok ()) :
    processItem ext tdir b c (Item.Macro mac) =
      (Except.ok ((b.include ic.includeDir).file (tdir.path ++ "/" ++ genName c),
        c + 1),
       [Event.argsParsed c, Event.includeRegistered ic.includeDir,
        Event.converted c, Event.fileWritten (genName c) cxx,
        Event.fileRegistered (tdir.path ++ "/" ++ genName c)]) := by
  have hw2 := hw
  simp only [genName] at hw2
  simp [processItem, hm, hp, IncludeCpp.generate_h_and_cxx,
        IncludeCpp.include_dir, hg, write_to_file, genName, hw2]

theorem countMatching_cons_matching (it : Item) (rest : List Item)
    (h : isMatching it = true) :
    countMatching (it :: rest) = countMatching rest + 1 := by
  simp [countMatching, List.filter_cons, h]

theorem countMatching_cons_skip (it : Item) (rest : List Item)
    (h : isMatching it = false) :
    countMatching (it :: rest) = countMatching rest := by
  simp [countMatching, List.filter_cons, h]

theorem countMatching_eq_zero (items : List Item) :
    countMatching items = 0 ↔ ∀ it ∈ items, isMatching it = false := by
  simp [countMatching, List.length_eq_zero, List.filter_eq_nil_iff]

theorem writtenNames_append (l1 l2 : List Event) :
    writtenNames (l1 ++ l2) = writtenNames l1 ++ writtenNames l2 := by
  induction l1 with
  | nil => rfl
  | cons e rest ih => cases e <;> simp [writtenNames, ih]

theorem processItems_no_matching (ext : Ext) (tdir : TempDir) :
    ∀ (items : List Item) (b : Build) (c : Nat),
    (∀ it ∈ items, isMatching it = false) →
    processItems ext tdir b c items = (Except.ok (b, c), []) := by
  intro items
  induction items with
  | nil => intro b c _; rfl
  | cons it rest ih =>
    intro b c hall
    have hskip := processItem_skip ext tdir b c it (hall it (by simp))
    have hrest := ih b c (fun x hx => hall x (by simp [hx]))
    simp [processItems, hskip, hrest]

theorem processItems_ok_counter (ext : Ext) (tdir : TempDir) :
    ∀ (items : List Item) (b : Build) (c : Nat) (b2 : Build) (c2 : Nat)
      (tr : List Event),
    processItems ext tdir b c items = (Except.ok (b2, c2), tr) →
    c2 = c + countMatching items := by
  intro items
  induction items with
  | nil =>
    intro b c b2 c2 tr h
    simp only [processItems, Prod.mk.injEq, Except.ok.injEq] at h
    obtain ⟨⟨_, rfl⟩, _⟩ := h
    simp [countMatching]
  | cons it rest ih =>
    intro b c b2 c2 tr h
    cases hmm : isMatching it with
    | false =>
      have hskip := processItem_skip ext tdir b c it hmm
      rw [countMatching_cons_skip it rest hmm]
      simp only [processItems, hskip] at h
      have h1 : (processItems ext tdir b c rest).1 = Except.ok (b2, c2) := by
        simpa using congrArg Prod.fst h
      exact ih b c b2 c2 _ (by rw [← h1])
    | true =>
      rw [countMatching_cons_matching it rest hmm]
      cases it with
      | Mod n inner => simp [isMatching] at hmm
      | Other t => simp [isMatching] at hmm
      | Macro mac =>
        have hm : mac.path.is_ident "include_cxx" = true := by
          simpa [isMatching] using hmm
        rcases hp : ext.newFromSyn mac with e | ic
        · have heq := processItem_parse_fail ext tdir b c mac e hm hp
          simp [processItems, heq] at h
        · rcases hg : ic.genResult with msg | pair
          · have heq := processItem_gen_fail ext tdir b c mac ic msg hm hp hg
            simp [processItems, heq] at h
          · obtain ⟨hdr, cxx⟩ := pair
            rcases hw : ext.writeFile (tdir.path ++ "/" ++ genName c) cxx
              with e | u
            · have heq := processItem_write_fail ext tdir b c mac ic hdr cxx e
                hm hp hg hw
              simp [processItems, heq] at h
            · obtain ⟨⟩ := u
              have heq := processItem_ok ext tdir b c mac ic hdr cxx hm hp hg hw
              simp only [processItems, heq] at h
              have h1 : (processItems ext tdir
                  ((b.include ic.includeDir).file (tdir.path ++ "/" ++ genName c))
                  (c + 1) rest).1 = Except.ok (b2, c2) := by
                simpa using congrArg Prod.fst h
              have := ih _ (c + 1) b2 c2 _ (by rw [← h1])
              omega

theorem processItems_error_shapes (ext : Ext) (tdir : TempDir) :
    ∀ (items : List Item) (b : Build) (c : Nat) (err : Error) (tr : List Event),
    processItems ext tdir b c items = (Except.error err, tr) →
    (∃ e, err = Error.MacroParseFail e) ∨ (∃ m, err = Error.InvalidCxx m) ∨
    (∃ e, err = Error.FileWriteFail e) := by
  intro items
  induction items with
  | nil =>
    intro b c err tr h
    simp [processItems] at h
  | cons it rest ih =>
    intro b c err tr h
    cases hmm : isMatching it with
    | false =>
      have hskip := processItem_skip ext tdir b c it hmm
      simp only [processItems, hskip] at h
      have h1 : (processItems ext tdir b c rest).1 = Except.error err := by
        simpa using congrArg Prod.fst h
      exact ih b c err _ (by rw [← h1])
    | true =>
      cases it with
      | Mod n inner => simp [isMatching] at hmm
      | Other t => simp [isMatching] at hmm
      | Macro mac =>
        have hm : mac.path.is_ident "include_cxx" = true := by
          simpa [isMatching] using hmm
        rcases hp : ext.newFromSyn mac with e | ic
        · have heq := processItem_parse_fail ext tdir b c mac e hm hp
          simp only [processItems, heq] at h
          have h1 : Error.MacroParseFail e = err := by
            simpa using congrArg Prod.fst h
          exact Or.inl ⟨e, h1.symm⟩
        · rcases hg : ic.genResult with msg | pair
          · have heq := processItem_gen_fail ext tdir b c mac ic msg hm hp hg
            simp only [processItems, heq] at h
            have h1 : Error.InvalidCxx msg = err := by
              simpa using congrArg Prod.fst h
            exact Or.inr (Or.inl ⟨msg, h1.symm⟩)
          · obtain ⟨hdr, cxx⟩ := pair
            rcases hw : ext.writeFile (tdir.path ++ "/" ++ genName c) cxx
              with e | u
            · have heq := processItem_write_fail ext tdir b c mac ic hdr cxx e
                hm hp hg hw
              simp only [processItems, heq] at h
              have h1 : Error.FileWriteFail e = err := by
                simpa using congrArg Prod.fst h
              exact Or.inr (Or.inr ⟨e, h1.symm⟩)
            · obtain ⟨⟩ := u
              have heq := processItem_ok ext tdir b c mac ic hdr cxx hm hp hg hw
              simp only [processItems, heq] at h
              have h1 : (processItems ext tdir
                  ((b.include ic.includeDir).file (tdir.path ++ "/" ++ genName c))
                  (c + 1) rest).1 = Except.error err := by
                simpa using congrArg Prod.fst h
              exact ih _ (c + 1) err _ (by rw [← h1])

theorem processItems_append_error (ext : Ext) (tdir : TempDir) :
    ∀ (items : List Item) (b : Build) (c : Nat) (err : Error) (tr : List Event),
    processItems ext tdir b c items = (Except.error err, tr) →
    ∀ more, processItems ext tdir b c (items ++ more) = (Except.error err, tr) := by
  intro items
  induction items with
  | nil =>
    intro b c err tr h
    simp [processItems] at h
  | cons it rest ih =>
    intro b c err tr h more
    rcases hpi : processItem ext tdir b c it with ⟨res, tr0⟩
    cases res with
    | error e =>
      simp only [List.cons_append, processItems, hpi] at h ⊢
      exact h
    | ok bc =>
      obtain ⟨b2, c2⟩ := bc
      simp only [List.cons_append, List.append_eq, processItems, hpi] at h ⊢
      have h1 : (processItems ext tdir b2 c2 rest).1 = Except.error err := by
        simpa using congrArg Prod.fst h
      have h2 : tr0 ++ (processItems ext tdir b2 c2 rest).2 = tr := by
        simpa using congrArg Prod.snd h
      have hrec := ih b2 c2 err _ (by rw [← h1]) more
      rw [hrec]
      simp [h2]

theorem processItems_all_ok (ext : Ext) (tdir : TempDir)
    (hw : ∀ p s, ext.writeFile p s = Except.ok ()) :
    ∀ (items : List Item), (∀ it ∈ items, stepsSucceed ext it) →
    ∀ (b : Build) (c : Nat),
    ∃ b2 tr,
      processItems ext tdir b c items =
        (Except.ok (b2, c + countMatching items), tr) ∧
      b2.files = b.files ++ genPathList tdir c (countMatching items) ∧
      writtenNames tr = genNameList c (countMatching items) := by
  intro items
  induction items with
  | nil =>
    intro _ b c
    exact ⟨b, [], by simp [processItems, countMatching, genPathList,
      genNameList, writtenNames]⟩
  | cons it rest ih =>
    intro hall b c
    cases hmm : isMatching it with
    | false =>
      have hskip := processItem_skip ext tdir b c it hmm
      obtain ⟨b2, tr, heq, hfiles, hnames⟩ :=
        ih (fun x hx => hall x (by simp [hx])) b c
      refine ⟨b2, tr, ?_, ?_, ?_⟩ <;> rw [countMatching_cons_skip it rest hmm]
      · simp [processItems, hskip, heq]
      · exact hfiles
      · exact hnames
    | true =>
      cases it with
      | Mod n inner => simp [isMatching] at hmm
      | Other t => simp [isMatching] at hmm
      | Macro mac =>
        have hm : mac.path.is_ident "include_cxx" = true := by
          simpa [isMatching] using hmm
        obtain ⟨ic, hp, hdr, cxx, hg⟩ := hall (Item.Macro mac) (by simp) hm
        have hok := processItem_ok ext tdir b c mac ic hdr cxx hm hp hg
          (hw _ _)
        obtain ⟨b2, tr, heq, hfiles, hnames⟩ :=
          ih (fun x hx => hall x (by simp [hx]))
            ((b.include ic.includeDir).file (tdir.path ++ "/" ++ genName c))
            (c + 1)
        rw [countMatching_cons_matching (Item.Macro mac) rest hmm]
        refine ⟨b2,
          [Event.argsParsed c, Event.includeRegistered ic.includeDir,
           Event.converted c, Event.fileWritten (genName c) cxx,
           Event.fileRegistered (tdir.path ++ "/" ++ genName c)] ++ tr,
          ?_, ?_, ?_⟩
        · have hcc : c + (countMatching rest + 1) = (c + 1) + countMatching rest := by
            omega
          rw [hcc]
          simp [processItems, hok, heq]
        · rw [hfiles]
          simp [Build.file, Build.include, genPathList]
        · rw [writtenNames_append, hnames]
          simp [writtenNames, genNameList]

/-- C2: when the environment accepts the file (temporary directory acquired,
file read and parsed, every matching invocation's argument parse and
conversion succeeding and every write succeeding) and the file holds N ≥ 1
matching include_cxx invocations, Builder::new succeeds; exactly N native
files named gen0.cxx … gen(N-1).cxx are written, assigned in source order,
and each written path is registered as a compilation input of the returned
build configuration. -/
theorem C2_builder_new_generates_n_files (ext : Ext) (tdir : TempDir)
    (src : String) (f : File)
    (h1 : ext.tempdirResult = Except.ok tdir)
    (h2 : ext.readToString = Except.ok src)
    (h3 : ext.parseFile src = Except.ok f)
    (hw : ∀ p s, ext.writeFile p s = Except.ok ())
    (hs : ∀ it ∈ f.items, stepsSucceed ext it)
    (hn : 1 ≤ countMatching f.items) :
    ∃ bu tr, Builder.new ext = (Except.ok bu, tr) ∧
      bu._tdir = tdir ∧
      writtenNames tr = genNameList 0 (countMatching f.items) ∧
      bu.build.files = genPathList tdir 0 (countMatching f.items) := by
  obtain ⟨b2, tr, heq, hfiles, hnames⟩ :=
    processItems_all_ok ext tdir hw f.items hs (Build.new.setCpp true) 0
  have hne : (countMatching f.items == 0) = false := by
    simp only [beq_eq_false_iff_ne]
    omega
  refine ⟨⟨b2, tdir⟩,
    [Event.tempdirCreated tdir.path, Event.fileRead, Event.fileParsed] ++ tr,
    ?_, rfl, ?_, ?_⟩
  · simp [Builder.new, h1, h2, h3, heq, hne]
  · rw [writtenNames_append, hnames]
    rfl
  · rw [hfiles]
    rfl

/-- C2, witnessed on a concrete environment whose file holds two matching
invocations around a non-macro item: the run succeeds, writes gen0.cxx and
gen1.cxx in source order, and registers both paths. -/
theorem C2_builder_new_generates_n_files_witness :
    ∃ bu tr, Builder.new extOk = (Except.ok bu, tr) ∧
      bu._tdir = tdirT ∧
      writtenNames tr = genNameList 0 2 ∧
      bu.build.files = genPathList tdirT 0 2 :=
  C2_builder_new_generates_n_files extOk tdirT "srcOk"
    ⟨[Item.Macro macGood, Item.Other "fn", Item.Macro macGood2]⟩
    rfl rfl rfl (fun _ _ => rfl)
    (by
      intro it hit
      simp only [List.mem_cons, List.not_mem_nil, or_false] at hit
      rcases hit with rfl | rfl | rfl
      · exact fun _ => ⟨_, rfl, "hdr", "cxx-" ++ "good", rfl⟩
      · trivial
      · exact fun _ => ⟨_, rfl, "hdr", "cxx-" ++ "good2", rfl⟩)
    (by decide)

/-- C3 (amended): Builder::new returns NoIncludeCxxMacrosFound if and only if
the temporary directory is created, the input file is readable, parses as a
syntax tree, and contains zero top-level macro invocations matching
include_cxx; top-level items that are not matching macro invocations are
ignored and never themselves cause an error. -/
theorem C3_no_macros_iff_amended (ext : Ext) :
    (Builder.new ext).1 = Except.error Error.NoIncludeCxxMacrosFound ↔
    (∃ tdir, ext.tempdirResult = Except.ok tdir) ∧
    ∃ src, ext.readToString = Except.ok src ∧
      ∃ f, ext.parseFile src = Except.ok f ∧ countMatching f.items = 0 := by
  constructor
  · intro h
    rcases h1 : ext.tempdirResult with e | tdir
    · simp [Builder.new, h1] at h
    rcases h2 : ext.readToString with e | src
    · simp [Builder.new, h1, h2] at h
    rcases h3 : ext.parseFile src with e | f
    · simp [Builder.new, h1, h2, h3] at h
    refine ⟨⟨tdir, rfl⟩, src, rfl, f, h3, ?_⟩
    rcases hr : processItems ext tdir (Build.new.setCpp true) 0 f.items
      with ⟨res, tr⟩
    cases res with
    | error e =>
      simp [Builder.new, h1, h2, h3, hr] at h
      subst h
      rcases processItems_error_shapes ext tdir f.items _ 0 _ _ hr
        with ⟨e', he⟩ | ⟨m, he⟩ | ⟨e', he⟩ <;> simp at he
    | ok bc =>
      obtain ⟨b2, c2⟩ := bc
      have hc := processItems_ok_counter ext tdir f.items _ 0 b2 c2 tr hr
      by_cases hz : c2 = 0
      · omega
      · have hne : (c2 == 0) = false := beq_eq_false_iff_ne.mpr hz
        simp [Builder.new, h1, h2, h3, hr, hne] at h
  · rintro ⟨⟨tdir, h1⟩, src, h2, f, h3, hz⟩
    have hall := (countMatching_eq_zero f.items).mp hz
    have hzero := processItems_no_matching ext tdir f.items
      (Build.new.setCpp true) 0 hall
    simp [Builder.new, h1, h2, h3, hzero]

/-- C3, witnessed backward on a concrete environment whose file parses to a
single non-macro item: the run returns exactly NoIncludeCxxMacrosFound. -/
theorem C3_no_macros_iff_amended_witness :
    (Builder.new { extOk with
        readToString := Except.ok "srcNone",
        parseFile := fun _ => Except.ok ⟨[Item.Other "fn"]⟩ }).1
      = Except.error Error.NoIncludeCxxMacrosFound :=
  (C3_no_macros_iff_amended _).mpr
    ⟨⟨tdirT, rfl⟩, "srcNone", rfl, ⟨[Item.Other "fn"]⟩, rfl, rfl⟩

/-- C3 counterexample to the claim as stated: in this environment the file
is readable (empty), parses, and holds zero matching invocations, yet
Builder::new does not return NoIncludeCxxMacrosFound — temporary-directory
creation failed first and the result is TempDirCreationFailed. -/
theorem C3_counterexample :
    extTmpFail.readToString = Except.ok "" ∧
    extTmpFail.parseFile "" = Except.ok ⟨[]⟩ ∧
    countMatching ([] : List Item) = 0 ∧
    (Builder.new extTmpFail).1
      = Except.error (Error.TempDirCreationFailed ⟨"tmpfail"⟩) ∧
    (Builder.new extTmpFail).1 ≠ Except.error Error.NoIncludeCxxMacrosFound :=
  ⟨rfl, rfl, rfl, rfl,
   fun hcontra => Error.noConfusion (Except.error.inj hcontra)⟩

/-- C4: every failure is classified into exactly its variant —
TempDirCreationFailed, FileReadError, Syntax, MacroParseFail, InvalidCxx
(carrying the underlying message), FileWriteFail — and the first failure is
returned immediately: appending further items after a failing one changes
neither the error nor the trace (later invocations are never processed),
errors are never aggregated, and the error result carries no Builder. -/
theorem C4_error_classification_fail_fast (ext : Ext) :
    (∀ e, ext.tempdirResult = Except.error e →
      Builder.new ext = (Except.error (Error.TempDirCreationFailed e), [])) ∧
    (∀ tdir e, ext.tempdirResult = Except.ok tdir →
      ext.readToString = Except.error e →
      Builder.new ext =
        (Except.error (Error.FileReadError e),
         [Event.tempdirCreated tdir.path])) ∧
    (∀ tdir src e, ext.tempdirResult = Except.ok tdir →
      ext.readToString = Except.ok src → ext.parseFile src = Except.error e →
      Builder.new ext =
        (Except.error (Error.Syntax e),
         [Event.tempdirCreated tdir.path, Event.fileRead])) ∧
    (∀ tdir b c mac e, mac.path.is_ident "include_cxx" = true →
      ext.newFromSyn mac = Except.error e →
      processItem ext tdir b c (Item.Macro mac) =
        (Except.error (Error.MacroParseFail e), [])) ∧
    (∀ tdir b c mac ic msg, mac.path.is_ident "include_cxx" = true →
      ext.newFromSyn mac = Except.ok ic → ic.genResult = Except.error msg →
      processItem ext tdir b c (Item.Macro mac) =
        (Except.error (Error.InvalidCxx msg),
         [Event.argsParsed c, Event.includeRegistered ic.includeDir])) ∧
    (∀ tdir b c mac ic hdr cxx e, mac.path.is_ident "include_cxx" = true →
      ext.newFromSyn mac = Except.ok ic →
      ic.genResult = Except.ok (hdr, cxx) →
      ext.writeFile (tdir.path ++ "/" ++ genName c) cxx = Except.error e →
      processItem ext tdir b c (Item.Macro mac) =
        (Except.error (Error.FileWriteFail e),
         [Event.argsParsed c, Event.includeRegistered ic.includeDir,
          Event.converted c])) ∧
    (∀ tdir b c items err tr more,
      processItems ext tdir b c items = (Except.error err, tr) →
      processItems ext tdir b c (items ++ more) = (Except.error err, tr)) ∧
    (∀ tdir src f err tr, ext.tempdirResult = Except.ok tdir →
      ext.readToString = Except.ok src → ext.parseFile src = Except.ok f →
      processItems ext tdir (Build.new.setCpp true) 0 f.items =
        (Except.error err, tr) →
      Builder.new ext =
        (Except.error err,
         [Event.tempdirCreated tdir.path, Event.fileRead, Event.fileParsed]
           ++ tr)) := by
  refine ⟨fun e h1 => by simp [Builder.new, h1],
    fun tdir e h1 h2 => by simp [Builder.new, h1, h2],
    fun tdir src e h1 h2 h3 => by simp [Builder.new, h1, h2, h3],
    fun tdir b c mac e hm hp => processItem_parse_fail ext tdir b c mac e hm hp,
    fun tdir b c mac ic msg hm hp hg =>
      processItem_gen_fail ext tdir b c mac ic msg hm hp hg,
    fun tdir b c mac ic hdr cxx e hm hp hg hwr =>
      processItem_write_fail ext tdir b c mac ic hdr cxx e hm hp hg hwr,
    fun tdir b c items err tr more h =>
      processItems_append_error ext tdir items b c err tr h more,
    fun tdir src f err tr h1 h2 h3 hr => by
      simp [Builder.new, h1, h2, h3, hr]⟩

/-- C4, witnessed on a concrete environment whose first invocation fails to
parse: the per-invocation step yields exactly MacroParseFail, appending the
later (healthy) invocation changes nothing, and Builder::new surfaces the
same single error with no later invocation processed. -/
theorem C4_error_classification_fail_fast_witness :
    processItem extFailFast tdirT (Build.new.setCpp true) 0
        (Item.Macro macBadParse) =
      (Except.error (Error.MacroParseFail ⟨"unable to parse include_cxx"⟩),
       []) ∧
    processItems extFailFast tdirT (Build.new.setCpp true) 0
        ([Item.Macro macBadParse] ++ [Item.Macro macGood]) =
      (Except.error (Error.MacroParseFail ⟨"unable to parse include_cxx"⟩),
       []) ∧
    Builder.new extFailFast =
      (Except.error (Error.MacroParseFail ⟨"unable to parse include_cxx"⟩),
       [Event.tempdirCreated "/tmp/t", Event.fileRead, Event.fileParsed]) :=
  ⟨(C4_error_classification_fail_fast extFailFast).2.2.2.1 tdirT
      (Build.new.setCpp true) 0 macBadParse _ rfl rfl,
   (C4_error_classification_fail_fast extFailFast).2.2.2.2.2.2.1 tdirT
      (Build.new.setCpp true) 0 [Item.Macro macBadParse] _ []
      [Item.Macro macGood] rfl,
   (C4_error_classification_fail_fast extFailFast).2.2.2.2.2.2.2 tdirT
      "srcFF" ⟨[Item.Macro macBadParse, Item.Macro macGood]⟩ _ []
      rfl rfl rfl rfl⟩

/-- C5 (amended): for each matching invocation the driver performs, in
order: parse the macro's argument syntax, register the invocation's include
directory as a header search path, run the conversion pipeline, write the
native file under the monotonically increasing generated filename, and only
then register the written file as a compilation input. (The claim placed
the include-directory registration after the write; the code performs it
immediately after the argument parse.) -/
theorem C5_invocation_order_amended (ext : Ext) (tdir : TempDir) (b : Build)
    (c : Nat) (mac : Mac) (ic : IncludeCpp) (hdr cxx : String)
    (hm : mac.path.is_ident "include_cxx" = true)
    (hp : ext.newFromSyn mac = Except.ok ic)
    (hg : ic.genResult = Except.ok (hdr, cxx))
    (hw : ext.writeFile (tdir.path ++ "/" ++ genName c) cxx = Except.ok ()) :
    processItem ext tdir b c (Item.Macro mac) =
      (Except.ok
        ((b.include ic.includeDir).file (tdir.path ++ "/" ++ genName c),
         c + 1),
       [Event.argsParsed c, Event.includeRegistered ic.includeDir,
        Event.converted c, Event.fileWritten (genName c) cxx,
        Event.fileRegistered (tdir.path ++ "/" ++ genName c)]) :=
  processItem_ok ext tdir b c mac ic hdr cxx hm hp hg hw

/-- C5 amended, witnessed on a concrete single-invocation run. -/
theorem C5_invocation_order_amended_witness :
    processItem extOne tdirT (Build.new.setCpp true) 0 (Item.Macro macGood) =
      (Except.ok
        (((Build.new.setCpp true).include "inc-good").file "/tmp/t/gen0.cxx",
         1),
       [Event.argsParsed 0, Event.includeRegistered "inc-good",
        Event.converted 0, Event.fileWritten "gen0.cxx" "cxx-good",
        Event.fileRegistered "/tmp/t/gen0.cxx"]) :=
  C5_invocation_order_amended extOne tdirT (Build.new.setCpp true) 0 macGood
    _ "hdr" ("cxx-" ++ "good") rfl rfl rfl rfl

/-- C5 counterexample to the claim as stated: on a successful
single-invocation run the trace registers the include directory right after
the argument parse — before conversion and before the file is written — so
the includeRegistered event has no preceding fileWritten event, refuting
the claimed placement of the include-directory registration after the
write. -/
theorem C5_counterexample :
    (Builder.new extOne).2 =
      [Event.tempdirCreated "/tmp/t", Event.fileRead, Event.fileParsed,
       Event.argsParsed 0, Event.includeRegistered "inc-good",
       Event.converted 0, Event.fileWritten "gen0.cxx" "cxx-good",
       Event.fileRegistered "/tmp/t/gen0.cxx"] ∧
    includeRegAfterWrite false (Builder.new extOne).2 = false :=
  ⟨rfl, rfl⟩

/-- C10: an invocation is counted and processed only when it is a top-level
item whose macro path is the single unqualified segment include_cxx:
path-qualified invocations, module contents (the loop never descends into
modules) and other items are silently skipped, so a file containing only
such items fails with NoIncludeCxxMacrosFound and its trace shows no
invocation processed. -/
theorem C10_top_level_unqualified_only (ext : Ext) (tdir : TempDir)
    (src : String) (f : File)
    (h1 : ext.tempdirResult = Except.ok tdir)
    (h2 : ext.readToString = Except.ok src)
    (h3 : ext.parseFile src = Except.ok f)
    (hall : ∀ it ∈ f.items, ∀ mac, it = Item.Macro mac →
      mac.path.is_ident "include_cxx" = false) :
    (∀ mac, isMatching (Item.Macro mac) =
      (!mac.path.leading_colon && mac.path.segments == ["include_cxx"])) ∧
    (∀ n inner, isMatching (Item.Mod n inner) = false) ∧
    (∀ t, isMatching (Item.Other t) = false) ∧
    Builder.new ext =
      (Except.error Error.NoIncludeCxxMacrosFound,
       [Event.tempdirCreated tdir.path, Event.fileRead, Event.fileParsed]) := by
  have hallm : ∀ it ∈ f.items, isMatching it = false := by
    intro it hit
    cases it with
    | Macro mac => exact hall (Item.Macro mac) hit mac rfl
    | Mod n inner => rfl
    | Other t => rfl
  have hz := processItems_no_matching ext tdir f.items
    (Build.new.setCpp true) 0 hallm
  refine ⟨fun mac => rfl, fun n inner => rfl, fun t => rfl, ?_⟩
  simp [Builder.new, h1, h2, h3, hz]

/-- C10, witnessed on a concrete file holding only a path-qualified
invocation, a module with a matching invocation nested inside, and a
non-macro item: Builder::new fails with NoIncludeCxxMacrosFound having
processed nothing. -/
theorem C10_top_level_unqualified_only_witness :
    Builder.new extSkip =
      (Except.error Error.NoIncludeCxxMacrosFound,
       [Event.tempdirCreated "/tmp/t", Event.fileRead, Event.fileParsed]) :=
  (C10_top_level_unqualified_only extSkip tdirT "srcSkip"
    ⟨[Item.Macro macQualified, Item.Mod "m" [Item.Macro macGood],
      Item.Other "fn"]⟩ rfl rfl rfl
    (by
      intro it hit mac hmac
      simp only [List.mem_cons, List.not_mem_nil, or_false] at hit
      rcases hit with rfl | rfl | rfl
      · cases hmac; rfl
      · cases hmac
      · cases hmac)).2.2.2

end Autocxx
